import Mathlib

/-!
# Verification of the sonic-form validation engine

Shallow embedding of the core of the `sonic-form` repository:

* `src/partialFn.ts` (and its extended variant with `partialFnWithFields`):
  placeholder-based partial application and field-reference resolution;
* `src/useForm.ts`: the validation runner (`validate`), event-driven
  orchestration (`handleChange`, `handleBlur`, `validateRelatedFields`),
  and whole-form validation (`validateAll`, `handleSubmit`).

JavaScript values flowing through the engine are modelled by the inductive
type `Value` (with an explicit `undefined`, the partial-application
placeholder symbol, strings and numbers).  JavaScript objects used as maps
are modelled as functions `String → Value` (absent key = `undefined`) for
form values, and `String → Option String` (absent key = `none`) for the
error map.  A validator may return a boolean or throw; this is modelled by
`Except Unit Bool`, and the engine's `await` of each validator in sequence
is modelled by sequential evaluation.  Exceptions escaping a function are
modelled with `Except JsErr _`; an `async` call whose rejection is not
awaited by its caller (as in `validateFromEvent` / `validateRelatedFields`)
is modelled by discarding the error and keeping the state unchanged, since
the rejected promise performs no state update and the caller continues.
-/

/-- JavaScript values used by the engine: `undefined`, `null`, strings,
integers, booleans, and the distinguished placeholder symbol `partialFn_`
from `partialFn.ts` (`Symbol('placeholder')`, compared with `===`). -/
inductive Value where
  | undefined : Value
  | null : Value
  | str : String → Value
  | num : Int → Value
  | bool : Bool → Value
  | ph : Value
deriving DecidableEq, Repr

/-- Form values map (`FormValues` in `useForm.ts`): a JS object read with
bracket lookup, where an absent key reads as `undefined`. -/
def FormValues : Type := String → Value

/-- Error map (`FormErrors` in `useForm.ts`): field name to error message.
`none` models an absent key (which JS reads as `undefined`). -/
def ErrMap : Type := String → Option String

/-- Functional update of the form-values map, as performed by
`setFormValues((prevState) => ({...prevState, [name]: v}))`. -/
def updV (m : FormValues) (k : String) (v : Value) : FormValues :=
  fun k' => if k' = k then v else m k'

/-- Functional update of the error map, as performed by
`setErrors((prevState) => ({...prevState, [name]: msg}))`. -/
def updE (m : ErrMap) (k : String) (s : String) : ErrMap :=
  fun k' => if k' = k then some s else m k'

/-- JS truthiness of `errors[k]`: `undefined` (absent key) and the empty
string are falsy; any non-empty string is truthy. -/
def errTruthy (m : ErrMap) (k : String) : Bool :=
  match m k with
  | some s => s != ""
  | none => false

/-- JS `a || d` for an optional string `a`: `undefined` and `""` fall
through to the default. Used for `validationOptions[pname].nestedFieldOf || pname`. -/
def jsOr (a : Option String) (d : String) : String :=
  match a with
  | some s => if s = "" then d else s
  | none => d

section PartialApplication

/-!
## `partialFn.ts`

`partialFn(fn, ...boundArgs)` returns a function of `...callArgs` that
builds `resultArgs` by replacing each placeholder in `boundArgs` with the
next call-time argument (an exhausted `callArgs` reads as `undefined`),
then appends the remaining call-time arguments, and applies `fn`.
-/

/-- JS indexing `callArgs[nextArg]`: out-of-range reads give `undefined`. -/
def nthOrUndefined (l : List Value) (i : Nat) : Value :=
  (l.get? i).getD .undefined

/-- The argument-building loop of `partialFn`: walk `boundArgs` with the
`nextArg` counter, replacing each placeholder (`boundArgs[i] === partialFn_`)
by `callArgs[nextArg++]`; afterwards the second loop appends
`callArgs[nextArg..]`, i.e. `callArgs.drop nextArg`. -/
def buildArgs (bound call : List Value) : List Value :=
  go bound 0
where
  go : List Value → Nat → List Value
    | [], next => call.drop next
    | b :: bs, next =>
      if b = .ph then nthOrUndefined call next :: go bs (next + 1)
      else b :: go bs next

/-- `partialFn fn boundArgs` applied to `callArgs` invokes
`fn` on the built argument list. The result type is a parameter, matching
the generic return type of the TypeScript function. -/
def partialFn {α : Type} (fn : List Value → α) (bound : List Value)
    (call : List Value) : α :=
  fn (buildArgs bound call)

/-- `arg.startsWith('@')`: the string's first character is `'@'`. -/
def startsWithAt (s : String) : Bool :=
  match s.data with
  | c :: _ => c = '@'
  | [] => false

/-- `partialFnWithFields(fn, ...boundArgs)` returns a function of
`(value, formValues?)`: each bound argument that is a string starting with
`'@'` is, when `formValues` is supplied, replaced by
`formValues[arg.slice(1)]`; then the plain `partialFn` result is applied to
the single argument `value`. -/
def partialFnWithFields {α : Type} (fn : List Value → α) (bound : List Value)
    (value : Value) (formValues : Option FormValues) : α :=
  let resolvedArgs := bound.map (fun arg =>
    match arg, formValues with
    | .str s, some m => if startsWithAt s then m (s.drop 1) else .str s
    | _, _ => arg)
  partialFn fn resolvedArgs [value]

/-!
Specification-side description of the built argument list, used to state
claim C7 independently of the counter-based loop in the source:
placeholders are filled left-to-right from the call-time arguments, and the
call-time arguments beyond the number of placeholders are appended.
-/

/-- Fill the placeholders of `bound` left-to-right from `cs` (spec-side
description; consumes one element of `cs` per placeholder). -/
def specFill : List Value → List Value → List Value
  | [], _ => []
  | b :: bs, cs =>
    if b = .ph then cs.headD .undefined :: specFill bs cs.tail
    else b :: specFill bs cs

/-- Number of placeholders in a bound-argument list. -/
def phCount (bound : List Value) : Nat :=
  bound.countP (fun b => b = .ph)

/-- Spec-side argument list: the bound arguments with placeholders filled
left-to-right from the call-time arguments, followed by the call-time
arguments that remain after the placeholders consumed their share. -/
def specArgs (bound call : List Value) : List Value :=
  specFill bound call ++ call.drop (phCount bound)

end PartialApplication

section UseForm

/-!
## `useForm.ts` — data model
-/

/-- Outcome of evaluating a validator on a value: a boolean result, or a
thrown / rejected exception (`Except.error`). -/
abbrev VResult := Except Unit Bool

/-- `Validation` interface: a predicate plus an error message. The
predicate may return a deferred boolean; the engine awaits it, so the
settled outcome is modelled directly. -/
structure Validation where
  isValid : Value → VResult
  errorMessage : String

/-- `ValidationOption` interface: an optional ordered list of validations,
an optional list of related field names, an optional nested-field
redirection target. -/
structure ValidationOption where
  validations : Option (List Validation) := none
  relatedFields : Option (List String) := none
  nestedFieldOf : Option String := none

/-- The `validationOptions` map: field name → configuration; `none` models
an absent key. -/
def CfgMap : Type := String → Option ValidationOption

/-- JS truthiness of `fieldConfig.nestedFieldOf`: present and non-empty. -/
def nestedTruthy (fc : ValidationOption) : Bool :=
  match fc.nestedFieldOf with
  | some s => s != ""
  | none => false

/-- JS truthiness of `fieldConfig.relatedFields?.length`: present and
non-empty. -/
def relTruthy (fc : ValidationOption) : Bool :=
  match fc.relatedFields with
  | some l => !l.isEmpty
  | none => false

/-- The validation list used by `validate` for a (resolved) name:
`namedValidationOptions?.validations ? namedValidationOptions.validations : []`. -/
def validationsOf (cfg : CfgMap) (n : String) : List Validation :=
  match cfg n with
  | some o => o.validations.getD []
  | none => []

/-- Exceptions that can escape the engine's functions: the `TypeError` from
dereferencing a missing configuration entry, and the mutual-exclusivity
configuration `Error` thrown by `validateRelatedFields`. -/
inductive JsErr where
  | typeError : JsErr
  | configError : JsErr
deriving DecidableEq, Repr

/-- A change-style event: the target's `name` property, the target's
`getAttribute('name')` result (`none` models `null`), and the target's
`value`. -/
structure Event where
  targetName : Option String := none
  attrName : Option String := none
  value : Value := .undefined

/-!
## `useForm.ts` — field resolution
-/

/-- JS `a || b` on two possibly-null strings (`event.target.name ||
event.target.getAttribute('name')`). -/
def jsOrS : Option String → Option String → Option String
  | some s, b => if s = "" then b else some s
  | none, b => b

/-- `getFieldName`: if both the `name` property and the `name` attribute
are `null`, log and return no name; otherwise return
`event.target.name || event.target.getAttribute('name')`.  All callers
test the result only for truthiness (`if (!name)`), so a falsy result
(`undefined`, `null` or `""`) is collapsed to `none`. -/
def getFieldName (e : Event) : Option String :=
  if e.targetName = none ∧ e.attrName = none then none
  else
    match jsOrS e.targetName e.attrName with
    | some s => if s = "" then none else some s
    | none => none

/-- `setValueFromChangeEvent`: no-op when the name does not resolve or the
event value is `undefined` (a warning is logged in the latter case);
otherwise merge the value into the form-values map. -/
def setValueFromChangeEvent (e : Event) (fv : FormValues) : FormValues :=
  match getFieldName e with
  | none => fv
  | some name =>
    if e.value = .undefined then fv
    else updV fv name e.value

/-!
## `useForm.ts` — validation runner
-/

/-- The validation loop of `validate`: starting from the empty error
message, each validation that returns `false` overwrites `errorMessage`
with its message; a validation that throws overwrites it with its message,
or with the generic `"Validation failed"` when the configured message is
empty (`validation.errorMessage || 'Validation failed'`).  Passing
validations leave the message unchanged; the loop never short-circuits. -/
def runValidations (vs : List Validation) (v : Value) : String :=
  vs.foldl
    (fun msg val =>
      match val.isValid v with
      | .ok true => msg
      | .ok false => val.errorMessage
      | .error _ => if val.errorMessage = "" then "Validation failed" else val.errorMessage)
    ""

/-- `validate(pname, currentValue?)`: dereferences
`validationOptions[pname].nestedFieldOf` (throwing a `TypeError` when
`pname` has no configuration entry), resolves the effective field name
(`nestedFieldOf || pname`), looks up that field's validations, chooses the
value to validate (`currentValue !== undefined ? currentValue :
formValues[nameToValidate]`), runs the loop, writes the resulting message
into the error map under the resolved name, and returns whether the
message is empty. -/
def validate (cfg : CfgMap) (fv : FormValues) (errs : ErrMap)
    (pname : String) (currentValue : Value) : Except JsErr (ErrMap × Bool) :=
  match cfg pname with
  | none => .error .typeError
  | some popt =>
    let nameToValidate := jsOr popt.nestedFieldOf pname
    let validations := validationsOf cfg nameToValidate
    let valueToValidate := if currentValue = .undefined then fv nameToValidate else currentValue
    let errorMessage := runValidations validations valueToValidate
    .ok (updE errs nameToValidate errorMessage, errorMessage == "")

/-- A call of the async `validate` whose promise is not awaited by the
caller (`validateFromEvent`, `validateRelatedFields`): a rejection is an
unhandled promise rejection that performs no state update, so the error
map is left as it was; a normal completion lands its error-map update. -/
def applyValidate (cfg : CfgMap) (fv : FormValues) (errs : ErrMap)
    (pname : String) (currentValue : Value) : ErrMap :=
  match validate cfg fv errs pname currentValue with
  | .ok (m, _) => m
  | .error _ => errs

/-!
## `useForm.ts` — orchestration
-/

/-- `validateRelatedFields`: resolve the name (no-op when it does not
resolve); dereference `validationOptions[name]` (`TypeError` when absent);
when not in production mode, throw if the configuration declares both a
truthy `nestedFieldOf` and a non-empty `relatedFields`; if `nestedFieldOf`
is truthy, validate only its target; otherwise validate each related field
whose entry in the error-map snapshot `snap` is truthy.  `snap` is the
`errors` object captured by the hook (the snapshot the truthiness tests
read), while `acc` is the error map as accumulated by the functional
`setErrors` updates of earlier validations in the same event. -/
def validateRelatedFields (production : Bool) (cfg : CfgMap) (fv : FormValues)
    (snap : ErrMap) (acc : ErrMap) (nameOpt : Option String) : Except JsErr ErrMap :=
  match nameOpt with
  | none => .ok acc
  | some name =>
    match cfg name with
    | none => .error .typeError
    | some fc =>
      if !production ∧ nestedTruthy fc ∧ relTruthy fc then
        .error .configError
      else if nestedTruthy fc then
        .ok (applyValidate cfg fv acc (fc.nestedFieldOf.getD "") .undefined)
      else
        .ok ((fc.relatedFields.getD []).foldl
          (fun a f => if errTruthy snap f then applyValidate cfg fv a f .undefined else a)
          acc)

/-- The validation phase shared by `handleChange`, `handleDropdownChange`
and `handleBlur`: `validateFromEvent(event)` (which validates the resolved
field against `event.target.value` without awaiting the promise) followed
by `validateRelatedFields(event)`. -/
def eventValidationPhase (production : Bool) (cfg : CfgMap) (fv : FormValues)
    (errs : ErrMap) (e : Event) : Except JsErr ErrMap :=
  match getFieldName e with
  | none => .ok errs
  | some name =>
    let errs1 := applyValidate cfg fv errs name e.value
    validateRelatedFields production cfg fv errs errs1 (some name)

/-- `handleBlur`: `validateFromEvent` then `validateRelatedFields`. -/
def handleBlur (production : Bool) (cfg : CfgMap) (fv : FormValues)
    (errs : ErrMap) (e : Event) : Except JsErr ErrMap :=
  eventValidationPhase production cfg fv errs e

/-- `handleChange`: `setValueFromChangeEvent`, then `validateFromEvent`,
then `validateRelatedFields`.  The first component is the resulting
form-values map (the `setFormValues` update is enqueued before any later
exception, so it is returned even when the validation phase throws); the
second is the error-map outcome of the validation phase. -/
def handleChange (production : Bool) (cfg : CfgMap) (fv : FormValues)
    (errs : ErrMap) (e : Event) : FormValues × Except JsErr ErrMap :=
  (setValueFromChangeEvent e fv, eventValidationPhase production cfg fv errs e)

/-!
## `useForm.ts` — whole-form validation
-/

/-- The declared configuration as an ordered association list: `for (const
name in validationOptions)` iterates the keys in declared order. -/
def Config : Type := List (String × ValidationOption)

/-- Bracket lookup on the configuration object. -/
def lookupCfg (cfg : Config) : CfgMap :=
  fun n => (cfg.find? (fun p => p.1 = n)).map Prod.snd

/-- The loop of `validateAll`: for each configured name in order, await
`validate(name)` (no current-value override) and conjoin its result with
the accumulator (`isFormValid = (await validate(name)) && isFormValid`).
An exception thrown by an awaited `validate` rejects the whole call. -/
def validateAllGo (cfg : CfgMap) (fv : FormValues) :
    List String → ErrMap → Bool → Except JsErr (ErrMap × Bool)
  | [], acc, valid => .ok (acc, valid)
  | n :: ns, acc, valid =>
    match validate cfg fv acc n .undefined with
    | .ok (m, b) => validateAllGo cfg fv ns m (b && valid)
    | .error err => .error err

/-- `validateAll`: iterate every configured field name in declared order,
starting from the current error map and `isFormValid = true`. -/
def validateAll (cfg : Config) (fv : FormValues) (errs : ErrMap) :
    Except JsErr (ErrMap × Bool) :=
  validateAllGo (lookupCfg cfg) fv (cfg.map Prod.fst) errs true

/-- A submit event, carrying only the observable effect of
`preventDefault()`. -/
structure SubmitEvent where
  defaultPrevented : Bool := false

/-- `handleSubmit`: `event.preventDefault()`, then return `await
validateAll()`. -/
def handleSubmit (cfg : Config) (fv : FormValues) (errs : ErrMap)
    (e : SubmitEvent) : SubmitEvent × Except JsErr (ErrMap × Bool) :=
  ({ e with defaultPrevented := true }, validateAll cfg fv errs)

end UseForm

section ClaimHelpers

/-!
## Specification-side helpers and concrete fixtures

Definitions used to state the claims (spec-side characterizations kept
separate from the source-translated definitions above) and the concrete
configurations, events and maps used by witnesses and counterexamples.
-/

/-- A validation fails on `v` when its predicate returns `false` or
throws. -/
def failsOn (v : Value) (val : Validation) : Bool :=
  match val.isValid v with
  | .ok true => false
  | .ok false => true
  | .error _ => true

/-- The message the runner records for a failing validation: its
configured error message, except that a throwing validation with an empty
configured message records the generic `"Validation failed"`. -/
def recordedMsg (v : Value) (val : Validation) : String :=
  match val.isValid v with
  | .error _ => if val.errorMessage = "" then "Validation failed" else val.errorMessage
  | _ => val.errorMessage

/-- Spec-side "last failure wins": the recorded message of the last
validation in the list that fails on `v`, if any. -/
def lastFailMsg (v : Value) : List Validation → Option String
  | [] => none
  | w :: ws =>
    match lastFailMsg v ws with
    | some m => some m
    | none => if failsOn v w then some (recordedMsg v w) else none

/-- Whether a single configured field validates clean against the stored
values (the boolean `validate` returns, which is independent of the error
map it threads). -/
def fieldClean (cfg : CfgMap) (fv : FormValues) (n : String) : Bool :=
  match validate cfg fv (fun _ => none) n .undefined with
  | .ok (_, b) => b
  | .error _ => false

/-- Spec-side description of the error map produced by validate-all: for
each configured name in declared order, the entry under the resolved name
is overwritten with the outcome of running the resolved validations on
the stored value. -/
def validateAllWrites (cfg : CfgMap) (fv : FormValues) (acc : ErrMap)
    (l : List String) : ErrMap :=
  l.foldl
    (fun a n =>
      match cfg n with
      | none => a
      | some popt =>
        updE a (jsOr popt.nestedFieldOf n)
          (runValidations (validationsOf cfg (jsOr popt.nestedFieldOf n))
            (fv (jsOr popt.nestedFieldOf n))))
    acc

/-- Observe one entry of an error-map outcome: `none` when the computation
threw, otherwise the entry under `k`. -/
def errAt (r : Except JsErr ErrMap) (k : String) : Option (Option String) :=
  match r with
  | .ok m => some (m k)
  | .error _ => none

/-- Whether an error-map computation completed without throwing. -/
def isOk (r : Except JsErr ErrMap) : Bool :=
  match r with
  | .ok _ => true
  | .error _ => false

/-- Whether a computation raised the mutual-exclusivity configuration
fault. -/
def raisedConfigFault (r : Except JsErr ErrMap) : Bool :=
  match r with
  | .error .configError => true
  | _ => false

/-- A validation that always fails with message "m1". -/
def vFailM1 : Validation := { isValid := fun _ => .ok false, errorMessage := "m1" }

/-- A validation that always passes. -/
def vPassB : Validation := { isValid := fun _ => .ok true, errorMessage := "mB" }

/-- A validation that always fails with message "m3". -/
def vFailM3 : Validation := { isValid := fun _ => .ok false, errorMessage := "m3" }

/-- A validation failing exactly on an `undefined` value. -/
def vRequired (msg : String) : Validation :=
  { isValid := fun v => .ok (v != .undefined), errorMessage := msg }

/-- All-undefined form values (an empty value map). -/
def fv0 : FormValues := fun _ => .undefined

/-- The empty error map. -/
def err0 : ErrMap := fun _ => none

/-- Configuration for the C1 witness, first example: field "f" with
validations [fail "m1", pass, fail "m3"]. -/
def cfgC1a : CfgMap := fun n =>
  if n = "f" then some { validations := some [vFailM1, vPassB, vFailM3] } else none

/-- Configuration for the C1 witness, second example: field "f" with
validations [fail "m1", pass]. -/
def cfgC1b : CfgMap := fun n =>
  if n = "f" then some { validations := some [vFailM1, vPassB] } else none

/-- Configuration for C2: a single field "a" whose validation requires a
defined value. -/
def cfgC2 : CfgMap := fun n =>
  if n = "a" then some { validations := some [vRequired "required"] } else none

/-- A change event on field "a" whose target value is undefined. -/
def eC2 : Event := { targetName := some "a", attrName := none, value := .undefined }

/-- Configuration for C3: field "x" declares both a nested-field target
"m" and a non-empty related-fields list; "m" exists with no validations. -/
def cfgC3 : CfgMap := fun n =>
  if n = "x" then some { nestedFieldOf := some "m", relatedFields := some ["r"] }
  else if n = "m" then some {} else none

/-- The configuration entry of field "x" in `cfgC3`. -/
def fcC3 : ValidationOption :=
  { nestedFieldOf := some "m", relatedFields := some ["r"] }

/-- Configuration for C4: field "s" relates to "e" and "g"; both "e" and
"g" would fail their required-validation on the stored (undefined)
values. -/
def cfgC4 : CfgMap := fun n =>
  if n = "s" then some { relatedFields := some ["e", "g"] }
  else if n = "e" then some { validations := some [vRequired "eMsg"] }
  else if n = "g" then some { validations := some [vRequired "gMsg"] }
  else none

/-- Error-map snapshot for C4: "e" already shows an error, "g" has no
entry. -/
def snapC4 : ErrMap := fun k => if k = "e" then some "old" else none

/-- Configuration for C5: auxiliary field "hour" redirects to main field
"date", whose validation requires a defined value. -/
def cfgC5 : CfgMap := fun n =>
  if n = "hour" then some { nestedFieldOf := some "date" }
  else if n = "date" then some { validations := some [vRequired "dateMsg"] } else none

/-- A change event on the auxiliary field "hour". -/
def eC5 : Event := { targetName := some "hour", attrName := none, value := .str "5" }

/-- Configuration for the C6 witness: "a" passes on any value, "b"
requires a defined value (and fails on the empty value map). -/
def cfgC6 : Config :=
  [("a", { validations := some [vPassB] }),
   ("b", { validations := some [vRequired "need b"] })]

/-- The empty configuration map (no field configured). -/
def cfgEmpty : CfgMap := fun _ => none

/-- An event naming the unconfigured field "zip". -/
def eC9 : Event := { targetName := some "zip", attrName := none, value := .str "1" }

/-- Head-projection predicate used by the C8 witness. -/
def fHead : List Value → Value := fun l => l.headD .undefined

/-- First form-values snapshot for C8: endDate is 1. -/
def mSnap1 : FormValues := fun k => if k = "endDate" then .num 1 else .undefined

/-- Second form-values snapshot for C8: endDate is 2. -/
def mSnap2 : FormValues := fun k => if k = "endDate" then .num 2 else .undefined

end ClaimHelpers

/-!
## Helper lemmas
-/

theorem nthOrUndefined_eq_headD_drop (l : List Value) (i : Nat) :
    nthOrUndefined l i = (l.drop i).headD .undefined := by
  simp [nthOrUndefined, List.headD_eq_head?, List.head?_drop]

theorem buildArgs_go_eq (call : List Value) (bs : List Value) (next : Nat) :
    buildArgs.go call bs next
      = specFill bs (call.drop next) ++ call.drop (next + phCount bs) := by
  induction bs generalizing next with
  | nil => simp [buildArgs.go, specFill, phCount]
  | cons b bs ih =>
    by_cases hb : b = Value.ph
    · simp only [buildArgs.go, specFill, hb, if_pos rfl, ih,
        nthOrUndefined_eq_headD_drop, List.tail_drop, phCount, List.countP_cons]
      simp [List.cons_append]
      congr 1
      omega
    · simp only [buildArgs.go, specFill, hb, if_neg hb, ih, phCount,
        List.countP_cons]
      simp [hb]

theorem buildArgs_eq_specArgs (bound call : List Value) :
    buildArgs bound call = specArgs bound call := by
  simpa using buildArgs_go_eq call bound 0

/-- The validation loop, for any initial message, returns the last
failure's recorded message, or the initial message when nothing fails. -/
theorem runValidations_foldl_eq (v : Value) (vs : List Validation) : ∀ msg : String,
    vs.foldl
      (fun msg val =>
        match val.isValid v with
        | .ok true => msg
        | .ok false => val.errorMessage
        | .error _ => if val.errorMessage = "" then "Validation failed" else val.errorMessage)
      msg
    = (lastFailMsg v vs).getD msg := by
  induction vs with
  | nil => intro msg; rfl
  | cons w ws ih =>
    intro msg
    rw [List.foldl_cons, ih]
    show _ = (match lastFailMsg v ws with
      | some m => some m
      | none => if failsOn v w then some (recordedMsg v w) else none).getD msg
    cases hws : lastFailMsg v ws with
    | some m => simp
    | none =>
      cases hiv : w.isValid v with
      | ok b => cases b <;> simp [failsOn, recordedMsg, hiv]
      | error e => simp [failsOn, recordedMsg, hiv]

/-- `runValidations` records the message of the last failing validation,
or the empty string when every validation passes. -/
theorem runValidations_eq_lastFailMsg (vs : List Validation) (v : Value) :
    runValidations vs v = (lastFailMsg v vs).getD "" := by
  rw [runValidations, runValidations_foldl_eq]

/-!
## Claim theorems
-/

/-- C7: the callable returned by partialFn invokes the underlying function
with the bound arguments in which each placeholder is replaced, left to
right, by the next unconsumed call-time argument, followed by the
remaining call-time arguments appended; in particular
partialFn(f, PLACEHOLDER, 5)(3) invokes f(3, 5),
partialFn(f, 5, PLACEHOLDER)(3) invokes f(5, 3), and
partialFn(f, PLACEHOLDER)(3, 9) invokes f(3, 9). -/
theorem partialFn_placeholder_semantics {α : Type} (f : List Value → α)
    (bound call : List Value) :
    partialFn f bound call = f (specArgs bound call) ∧
    partialFn f [.ph, .num 5] [.num 3] = f [.num 3, .num 5] ∧
    partialFn f [.num 5, .ph] [.num 3] = f [.num 5, .num 3] ∧
    partialFn f [.ph] [.num 3, .num 9] = f [.num 3, .num 9] :=
  ⟨by rw [partialFn, buildArgs_eq_specArgs], rfl, rfl, rfl⟩

/-- C8: the function returned by partialFnWithFields resolves a bound
field-reference string "@name" against the form-values map supplied at
call time, passing the live value of "name" (followed by the call-time
value) to the underlying predicate; calls with different snapshots hence
see different values. -/
theorem partialFnWithFields_live_resolution {α : Type} (f : List Value → α)
    (m : FormValues) (s : String) (v : Value)
    (hs : startsWithAt s = true) (hph : m (s.drop 1) ≠ .ph) :
    partialFnWithFields f [.str s] v (some m) = f [m (s.drop 1), v] := by
  simp only [partialFnWithFields, List.map_cons, List.map_nil, hs, if_pos]
  simp [partialFn, buildArgs, buildArgs.go, hph]

/-- C8 witness: binding "@endDate" and calling with two different
form-value snapshots yields the live value of endDate at each call: 1 for
the first snapshot, 2 for the second. -/
theorem partialFnWithFields_live_resolution_witness :
    partialFnWithFields fHead [.str "@endDate"] (.num 0) (some mSnap1) = .num 1 ∧
    partialFnWithFields fHead [.str "@endDate"] (.num 0) (some mSnap2) = .num 2 :=
  ⟨(partialFnWithFields_live_resolution fHead mSnap1 "@endDate" (.num 0)
      (by decide) (by decide)).trans rfl,
   (partialFnWithFields_live_resolution fHead mSnap2 "@endDate" (.num 0)
      (by decide) (by decide)).trans rfl⟩

/-- C10: with the optional form-values argument omitted, the function
returned by partialFnWithFields performs no reference resolution: it is
exactly the plain partial application, and a literal "@..." string bound
argument is passed through to the predicate unchanged.  Moreover the
validation runner invokes a validator with exactly one argument (the
candidate value), so a partialFnWithFields-built validator run through the
engine receives no form-values map and its field references stay
unresolved. -/
theorem partialFnWithFields_no_resolution {α : Type} (f : List Value → α)
    (bound : List Value) (v : Value) (s : String)
    (g : List Value → Bool) (msg : String) :
    partialFnWithFields f bound v none = partialFn f bound [v] ∧
    partialFnWithFields f [.str s] v none = f [.str s, v] ∧
    runValidations [{ isValid := fun x => .ok (partialFnWithFields g bound x none),
                      errorMessage := msg }] v
      = (if g (buildArgs bound [v]) then "" else msg) := by
  refine ⟨?_, ?_, ?_⟩
  · simp [partialFnWithFields]
  · simp only [partialFnWithFields, List.map_cons, List.map_nil]
    show f (buildArgs [.str s] [v]) = _
    simp [buildArgs, buildArgs.go]
  · simp only [runValidations, List.foldl_cons, List.foldl_nil,
      partialFnWithFields, List.map_id']
    cases hg : g (buildArgs bound [v]) <;> simp [partialFn, hg]

/-- C1: for a configured field, validate runs every validation in declared
order without short-circuiting and records as the field's error the
message of the last validation that returned false or threw (the empty
string when all pass), writing it under the resolved field name and
returning whether the message is empty. -/
theorem validate_last_failure_wins (cfg : CfgMap) (fv : FormValues)
    (errs : ErrMap) (pname : String) (cv : Value) (popt : ValidationOption)
    (h : cfg pname = some popt) :
    validate cfg fv errs pname cv =
      (let ntv := jsOr popt.nestedFieldOf pname
       let v := if cv = .undefined then fv ntv else cv
       let msg := (lastFailMsg v (validationsOf cfg ntv)).getD ""
       .ok (updE errs ntv msg, msg == "")) := by
  simp only [validate, h, runValidations_eq_lastFailMsg]

/-- C1 witness: with validations [fail "m1", pass, fail "m3"] the recorded
error is "m3"; with [fail "m1", pass] it is "m1". -/
theorem validate_last_failure_wins_witness :
    validate cfgC1a fv0 err0 "f" (.str "x") = .ok (updE err0 "f" "m3", false) ∧
    validate cfgC1b fv0 err0 "f" (.str "x") = .ok (updE err0 "f" "m1", false) :=
  ⟨(validate_last_failure_wins cfgC1a fv0 err0 "f" (.str "x")
      { validations := some [vFailM1, vPassB, vFailM3] } rfl).trans rfl,
   (validate_last_failure_wins cfgC1b fv0 err0 "f" (.str "x")
      { validations := some [vFailM1, vPassB] } rfl).trans rfl⟩

/-- C2 counterexample: a change event on configured field "a" with an
undefined target value.  The claim says the change operation is a complete
no-op apart from a warning, with no validation run and no error-map entry
mutated; but handleChange still calls validateFromEvent, which validates
"a" against the stored (undefined) value and writes "required" under "a",
mutating an error map that previously had no entry for "a". -/
theorem handleChange_undef_not_noop_counterexample :
    getFieldName eC2 = some "a" ∧ eC2.value = .undefined ∧ err0 "a" = none ∧
    errAt (handleChange false cfgC2 fv0 err0 eC2).2 "a" = some (some "required") :=
  ⟨rfl, rfl, rfl, rfl⟩

/-- C2 (amended): for a change event whose target value is undefined (and
whose field name resolves to a configured field), the value map is not
updated and a warning is logged, but the operation is not a complete
no-op: validation still runs against the stored value of the resolved
field, the error map entry under the resolved name is rewritten with the
outcome, and related-field fan-out still executes. -/
theorem handleChange_undef_value_skips_only_value_write (production : Bool)
    (cfg : CfgMap) (fv : FormValues) (errs : ErrMap) (e : Event)
    (name : String) (popt : ValidationOption)
    (h1 : getFieldName e = some name) (h2 : e.value = .undefined)
    (h3 : cfg name = some popt) :
    (handleChange production cfg fv errs e).1 = fv ∧
    (handleChange production cfg fv errs e).2 =
      validateRelatedFields production cfg fv errs
        (updE errs (jsOr popt.nestedFieldOf name)
          (runValidations (validationsOf cfg (jsOr popt.nestedFieldOf name))
            (fv (jsOr popt.nestedFieldOf name))))
        (some name) := by
  constructor
  · simp [handleChange, setValueFromChangeEvent, h1, h2]
  · simp [handleChange, eventValidationPhase, h1, applyValidate, validate, h3, h2]

/-- C2 witness for the amended claim: at the concrete counterexample input
the value map is untouched while the validation phase proceeds from an
error map already updated for "a". -/
theorem handleChange_undef_value_skips_only_value_write_witness :
    (handleChange false cfgC2 fv0 err0 eC2).1 = fv0 ∧
    (handleChange false cfgC2 fv0 err0 eC2).2 =
      validateRelatedFields false cfgC2 fv0 err0
        (updE err0 (jsOr (none : Option String) "a")
          (runValidations (validationsOf cfgC2 (jsOr (none : Option String) "a"))
            (fv0 (jsOr (none : Option String) "a"))))
        (some "a") :=
  handleChange_undef_value_skips_only_value_write false cfgC2 fv0 err0 eC2 "a"
    { validations := some [vRequired "required"] } rfl rfl rfl

/-- C3 counterexample: field "x" declares both nestedFieldOf "m" and the
non-empty relatedFields ["r"], yet in production mode executing its
fan-out logic raises no fault at all: the mutual-exclusivity check is
guarded by the NODE_ENV test, so the raising is not unconditional. -/
theorem mutual_exclusivity_not_raised_in_production_counterexample :
    cfgC3 "x" = some fcC3 ∧
    nestedTruthy fcC3 = true ∧ relTruthy fcC3 = true ∧
    raisedConfigFault (validateRelatedFields true cfgC3 fv0 err0 err0 (some "x")) = false ∧
    isOk (validateRelatedFields true cfgC3 fv0 err0 err0 (some "x")) = true :=
  ⟨rfl, rfl, rfl, rfl, rfl⟩

/-- C3 (amended): for a field whose configuration declares both
nestedFieldOf and a non-empty relatedFields list, executing that field's
change/blur fan-out logic raises a fault when, and only when, not in
production mode: outside production the configuration error is thrown;
in production the check is skipped and the nested-field branch executes
normally. -/
theorem validateRelatedFields_mutual_exclusivity (cfg : CfgMap)
    (fv : FormValues) (snap acc : ErrMap) (name : String)
    (fc : ValidationOption) (h : cfg name = some fc)
    (h1 : nestedTruthy fc = true) (h2 : relTruthy fc = true) :
    validateRelatedFields false cfg fv snap acc (some name) = .error .configError ∧
    validateRelatedFields true cfg fv snap acc (some name) =
      .ok (applyValidate cfg fv acc (fc.nestedFieldOf.getD "") .undefined) := by
  constructor
  · simp [validateRelatedFields, h, h1, h2]
  · simp [validateRelatedFields, h, h1, h2]

/-- C3 witness: on the concrete both-declared configuration, development
mode throws the configuration error and production mode completes with the
nested-target validation. -/
theorem validateRelatedFields_mutual_exclusivity_witness :
    validateRelatedFields false cfgC3 fv0 err0 err0 (some "x") = .error .configError ∧
    validateRelatedFields true cfgC3 fv0 err0 err0 (some "x") =
      .ok (applyValidate cfgC3 fv0 err0 (fcC3.nestedFieldOf.getD "") .undefined) :=
  validateRelatedFields_mutual_exclusivity cfgC3 fv0 err0 err0 "x" fcC3 rfl rfl rfl

/-- Folding with a guard equals folding over the filtered list. -/
theorem foldl_ite_eq_foldl_filter {β : Type} (p : String → Bool)
    (g : β → String → β) (l : List String) (init : β) :
    l.foldl (fun a f => if p f then g a f else a) init
      = (l.filter p).foldl g init := by
  induction l generalizing init with
  | nil => rfl
  | cons x xs ih =>
    cases hx : p x <;> simp [List.filter_cons, hx, ih]

/-- C4: for a field with a relatedFields list and no (truthy)
nestedFieldOf, the fan-out re-validates exactly those related fields whose
entry in the error-map snapshot is a non-empty string (an absent key
counting as empty), in order; when no related field holds a prior error,
the fan-out leaves the accumulated error map untouched, so an untouched
sibling never acquires a new error. -/
theorem validateRelatedFields_fanout_iff_prior_error (production : Bool)
    (cfg : CfgMap) (fv : FormValues) (snap acc : ErrMap) (name : String)
    (fc : ValidationOption) (h : cfg name = some fc)
    (hn : nestedTruthy fc = false) :
    validateRelatedFields production cfg fv snap acc (some name) =
      .ok (((fc.relatedFields.getD []).filter (fun f => errTruthy snap f)).foldl
            (fun a f => applyValidate cfg fv a f .undefined) acc) ∧
    (∀ k, snap k = none → errTruthy snap k = false) ∧
    ((∀ f ∈ fc.relatedFields.getD [], errTruthy snap f = false) →
      validateRelatedFields production cfg fv snap acc (some name) = .ok acc) := by
  have hmain : validateRelatedFields production cfg fv snap acc (some name) =
      .ok (((fc.relatedFields.getD []).filter (fun f => errTruthy snap f)).foldl
            (fun a f => applyValidate cfg fv a f .undefined) acc) := by
    simp [validateRelatedFields, h, hn, foldl_ite_eq_foldl_filter]
  refine ⟨hmain, ?_, ?_⟩
  · intro k hk
    simp [errTruthy, hk]
  · intro hall
    rw [hmain]
    have : (fc.relatedFields.getD []).filter (fun f => errTruthy snap f) = [] := by
      simp only [List.filter_eq_nil_iff]
      intro f hf
      simp [hall f hf]
    rw [this]
    rfl

/-- C4 witness: field "s" relates to "e" (prior error "old") and "g" (no
entry); the fan-out re-validates "e", rewriting its error from the stored
value, and leaves "g" without any entry. -/
theorem validateRelatedFields_fanout_iff_prior_error_witness :
    validateRelatedFields false cfgC4 fv0 snapC4 snapC4 (some "s")
      = .ok (updE snapC4 "e" "eMsg") ∧
    errAt (validateRelatedFields false cfgC4 fv0 snapC4 snapC4 (some "s")) "g"
      = some none := by
  have h := (validateRelatedFields_fanout_iff_prior_error false cfgC4 fv0
    snapC4 snapC4 "s" { relatedFields := some ["e", "g"] } rfl rfl).1
  have h2 : validateRelatedFields false cfgC4 fv0 snapC4 snapC4 (some "s")
      = .ok (updE snapC4 "e" "eMsg") := h.trans rfl
  exact ⟨h2, by rw [h2]; rfl⟩

/-- C5: a change or blur on an auxiliary field whose configuration
declares nestedFieldOf pointing at a main field never changes the error
map entry under the auxiliary field's own name: validation runs against
the main field's validation sequence and the resulting error string is
written only under the main field's key. -/
theorem nested_redirection_writes_only_target (production : Bool)
    (cfg : CfgMap) (fv : FormValues) (errs : ErrMap) (e : Event)
    (aux tgt : String) (fc topt : ValidationOption)
    (he : getFieldName e = some aux) (hc : cfg aux = some fc)
    (hn : fc.nestedFieldOf = some tgt) (ht : tgt ≠ "")
    (hr : relTruthy fc = false) (hct : cfg tgt = some topt)
    (hnt : topt.nestedFieldOf = none) (hne : aux ≠ tgt) :
    ∃ errs', (handleChange production cfg fv errs e).2 = .ok errs' ∧
      handleBlur production cfg fv errs e = .ok errs' ∧
      errs' aux = errs aux ∧
      (∀ k, k ≠ tgt → errs' k = errs k) ∧
      errs' tgt = some (runValidations (validationsOf cfg tgt) (fv tgt)) := by
  have hjs : jsOr fc.nestedFieldOf aux = tgt := by simp [jsOr, hn, ht]
  have hjs2 : jsOr topt.nestedFieldOf tgt = tgt := by simp [jsOr, hnt]
  have hntT : nestedTruthy fc = true := by simp [nestedTruthy, hn, ht]
  have hgd : fc.nestedFieldOf.getD "" = tgt := by simp [hn]
  refine ⟨updE (updE errs tgt (runValidations (validationsOf cfg tgt)
      (if e.value = .undefined then fv tgt else e.value))) tgt
      (runValidations (validationsOf cfg tgt) (fv tgt)), ?_, ?_, ?_, ?_, ?_⟩
  · simp [handleChange, eventValidationPhase, he, applyValidate, validate,
      hc, hct, hjs, hjs2, validateRelatedFields, hntT, hr, hgd]
  · simp [handleBlur, eventValidationPhase, he, applyValidate, validate,
      hc, hct, hjs, hjs2, validateRelatedFields, hntT, hr, hgd]
  · simp [updE, hne]
  · intro k hk
    simp [updE, hk]
  · simp [updE]

/-- C5 witness: changing the auxiliary "hour" field leaves "hour" without
any error entry while writing the outcome of "date"'s validation (against
the stored, undefined date value) under "date". -/
theorem nested_redirection_writes_only_target_witness :
    errAt (handleChange false cfgC5 fv0 err0 eC5).2 "hour" = some none ∧
    errAt (handleChange false cfgC5 fv0 err0 eC5).2 "date" = some (some "dateMsg") := by
  obtain ⟨errs', h1, _, h3, _, h5⟩ :=
    nested_redirection_writes_only_target false cfgC5 fv0 err0 eC5 "hour" "date"
      { nestedFieldOf := some "date" } { validations := some [vRequired "dateMsg"] }
      rfl rfl rfl (by decide) rfl rfl rfl (by decide)
  constructor
  · rw [h1]
    simp only [errAt]
    rw [h3]
    rfl
  · rw [h1]
    simp only [errAt]
    rw [h5]
    rfl

/-- The shape of a successful validate call with no current-value
override: it writes under the resolved name the outcome of running the
resolved validations on the stored value, and returns the boolean
fieldClean, which does not depend on the error map threaded through. -/
theorem validate_stored_value_shape (cfg : CfgMap) (fv : FormValues)
    (errs : ErrMap) (n : String) (popt : ValidationOption)
    (h : cfg n = some popt) :
    validate cfg fv errs n .undefined =
      .ok (updE errs (jsOr popt.nestedFieldOf n)
            (runValidations (validationsOf cfg (jsOr popt.nestedFieldOf n))
              (fv (jsOr popt.nestedFieldOf n))),
           fieldClean cfg fv n) := by
  simp [validate, h, fieldClean]

/-- The validateAll loop over a list of configured names writes each
field's outcome in order and returns the conjunction of every field's
cleanliness with the incoming accumulator. -/
theorem validateAllGo_spec (cfg : CfgMap) (fv : FormValues)
    (l : List String) (acc : ErrMap) (valid : Bool)
    (h : ∀ n ∈ l, (cfg n).isSome = true) :
    validateAllGo cfg fv l acc valid
      = .ok (validateAllWrites cfg fv acc l, l.all (fieldClean cfg fv) && valid) := by
  induction l generalizing acc valid with
  | nil => simp [validateAllGo, validateAllWrites]
  | cons n ns ih =>
    obtain ⟨popt, hp⟩ := Option.isSome_iff_exists.mp (h n (List.mem_cons_self n ns))
    have hstep : validateAllGo cfg fv (n :: ns) acc valid
        = validateAllGo cfg fv ns
            (updE acc (jsOr popt.nestedFieldOf n)
              (runValidations (validationsOf cfg (jsOr popt.nestedFieldOf n))
                (fv (jsOr popt.nestedFieldOf n))))
            (fieldClean cfg fv n && valid) := by
      rw [validateAllGo, validate_stored_value_shape cfg fv acc n popt hp]
    have hw : validateAllWrites cfg fv acc (n :: ns)
        = validateAllWrites cfg fv
            (updE acc (jsOr popt.nestedFieldOf n)
              (runValidations (validationsOf cfg (jsOr popt.nestedFieldOf n))
                (fv (jsOr popt.nestedFieldOf n))))
            ns := by
      rw [validateAllWrites, List.foldl_cons, hp]
      rfl
    rw [hstep, ih _ _ (fun x hx => h x (List.mem_cons_of_mem n hx)), hw]
    simp [List.all_cons, Bool.and_assoc, Bool.and_left_comm, Bool.and_comm]

/-- C6: handleSubmit suppresses the event's default action and returns
exactly the result of validateAll; validateAll iterates every configured
field name in the configuration's declared order, validating each against
the stored value (no current-value override), and its boolean is true if
and only if every configured field validates clean. -/
theorem submit_runs_validate_all (cfg : Config) (fv : FormValues)
    (errs : ErrMap) (e : SubmitEvent) :
    (handleSubmit cfg fv errs e).1.defaultPrevented = true ∧
    (handleSubmit cfg fv errs e).2 = validateAll cfg fv errs ∧
    validateAll cfg fv errs
      = .ok (validateAllWrites (lookupCfg cfg) fv errs (cfg.map Prod.fst),
             (cfg.map Prod.fst).all (fieldClean (lookupCfg cfg) fv)) := by
  refine ⟨rfl, rfl, ?_⟩
  have h : ∀ n ∈ cfg.map Prod.fst, ((lookupCfg cfg) n).isSome = true := by
    intro n hn
    obtain ⟨p, hp, rfl⟩ := List.mem_map.mp hn
    have : (cfg.find? (fun q => q.1 = p.1)).isSome = true := by
      rw [List.find?_isSome]
      exact ⟨p, hp, by simp⟩
    simpa [lookupCfg] using this
  have hm := validateAllGo_spec (lookupCfg cfg) fv (cfg.map Prod.fst) errs true h
  simpa [validateAll] using hm

/-- C9: validating a field name absent from the configuration map is
neither "always valid" nor a no-op: validate dereferences the missing
entry and raises a TypeError before any validation or error-map write,
and a change or blur event resolving to that name likewise ends in a
TypeError (raised from the fan-out step, after the unawaited validate call
rejects without touching the error map). -/
theorem validate_missing_config_raises (production : Bool) (cfg : CfgMap)
    (fv : FormValues) (errs : ErrMap) (pname : String) (cv : Value) (e : Event)
    (h : cfg pname = none) (he : getFieldName e = some pname) :
    validate cfg fv errs pname cv = .error .typeError ∧
    (handleChange production cfg fv errs e).2 = .error .typeError ∧
    handleBlur production cfg fv errs e = .error .typeError := by
  refine ⟨by simp [validate, h], ?_, ?_⟩ <;>
    simp [handleChange, handleBlur, eventValidationPhase, he, applyValidate,
      validate, h, validateRelatedFields]

/-- C9 witness: with an empty configuration, validating (or changing or
blurring) the field "zip" raises the TypeError. -/
theorem validate_missing_config_raises_witness :
    validate cfgEmpty fv0 err0 "zip" (.str "1") = .error .typeError ∧
    (handleChange false cfgEmpty fv0 err0 eC9).2 = .error .typeError ∧
    handleBlur false cfgEmpty fv0 err0 eC9 = .error .typeError :=
  validate_missing_config_raises false cfgEmpty fv0 err0 "zip" (.str "1") eC9 rfl rfl
